import Mathlib

/-!
# Shallow embedding of the h5ai-dl crawler/downloader

The repository is a Go program (three near-duplicate variants: `main.go` with
a JSON listing backend, and two HTML-table backends, called part_000 and
part_001 here) that recursively crawls a directory-index server and downloads
every file, throttled by a shared atomic counter, recording every file URL in
a manifest file.

This file embeds, directly from the Go source:
 * the admission step of the concurrency gate (`saveContentAsync` /
   `crawlDirectoryAsync`) and the counter accounting of a full run;
 * the integrity-check / fetch decision and event trace of `downloadUrl`
   and `saveContent`;
 * the byte-streaming loop of `downloadUrl`;
 * the local artifact path derivation (`getDownloadPath`, and the
   `fileUrl[25:]` derivation of the part_001 variant);
 * the per-entry dispatch of `crawlDirectory` (JSON variant) and of
   `ParseEntry` (HTML variants);
 * the goroutine / WaitGroup join discipline of `main`.
-/

namespace H5ai

/-! ## ConcurrencyGate

`saveContentAsync` and `crawlDirectoryAsync` (identical logic) implement the
gate: `nThreads := atomic.AddInt64(&threads, 1)`; when `nThreads <=
maxThreads` the work is dispatched as `go f_async()`, otherwise
`atomic.AddInt64(&threads, -1)` restores the counter and the same work runs
inline on the caller. -/

/-- Outcome of one admission request. -/
inductive Decision
  | runConcurrently
  | runInline
  deriving DecidableEq, Repr

/-- Shared gate state: the active-branch counter (`threads`) and the
configured limit (`maxThreads`; the part_001 variant hardcodes 12). The Go
counter is an `int64`; branch counts never approach the wrap-around, so it is
modelled as an unbounded integer. -/
structure Gate where
  activeCount : Int
  limit : Int
  deriving DecidableEq, Repr

/-- Admission step of the gate, translated from `saveContentAsync` /
`crawlDirectoryAsync` (main.go lines 202-231): increment the counter,
dispatch concurrently when the post-increment value is at most the limit,
otherwise decrement back and run inline. -/
def enterGate (g : Gate) : Decision × Gate :=
  let n := g.activeCount + 1
  if n ≤ g.limit then
    (Decision.runConcurrently, { g with activeCount := n })
  else
    (Decision.runInline, { g with activeCount := n - 1 })

/-! ## Counter accounting over a whole run

Each admitted branch touches the shared counter exactly twice: the increment
at admission, and one matching decrement — immediately at admission for an
inline branch (main.go line 213), or at the end of the goroutine body for a
concurrent branch (main.go line 207). A run of the program is any
interleaving of the branches' event sequences. -/

/-- One atomic update of the shared counter. -/
inductive GateEvent
  | inc
  | dec
  deriving DecidableEq, Repr

/-- Effect of one event on the counter. -/
def delta : GateEvent → Int
  | .inc => 1
  | .dec => -1

/-- Counter value after a sequence of atomic updates. -/
def applyEvents (c : Int) : List GateEvent → Int
  | [] => c
  | e :: t => applyEvents (c + delta e) t

/-- Net effect of a list of events. -/
def listDelta (l : List GateEvent) : Int := (l.map delta).sum

/-- Counter events contributed by one admitted branch that runs to
completion. A concurrent branch increments at admission and decrements when
its goroutine body finishes; an inline branch increments at admission and
decrements back immediately before running the work on the caller. -/
def branchEvents : Decision → List GateEvent
  | .runConcurrently => [.inc, .dec]
  | .runInline => [.inc, .dec]

/-- `Interleaving L t` holds when `t` is an arbitrary interleaving of the
event lists in `L`, each list's internal order preserved — the set of counter
histories a parallel run can produce. -/
inductive Interleaving : List (List GateEvent) → List GateEvent → Prop
  | all_nil (L : List (List GateEvent)) (h : ∀ l ∈ L, l = []) : Interleaving L []
  | take (p : List (List GateEvent)) (x : GateEvent) (s : List GateEvent)
      (q : List (List GateEvent)) (t : List GateEvent)
      (h : Interleaving (p ++ s :: q) t) :
      Interleaving (p ++ (x :: s) :: q) (x :: t)

theorem applyEvents_eq (c : Int) (t : List GateEvent) :
    applyEvents c t = c + listDelta t := by
  induction t generalizing c with
  | nil => simp [applyEvents, listDelta]
  | cons e t ih =>
    simp only [applyEvents, listDelta, List.map_cons, List.sum_cons, ih]
    ring

theorem listDelta_cons (e : GateEvent) (t : List GateEvent) :
    listDelta (e :: t) = delta e + listDelta t := by
  simp [listDelta]

theorem interleaving_delta {L : List (List GateEvent)} {t : List GateEvent}
    (h : Interleaving L t) : listDelta t = (L.map listDelta).sum := by
  induction h with
  | all_nil L h =>
    have hz : ∀ x ∈ L.map listDelta, x = 0 := by
      intro x hx
      obtain ⟨l, hl, rfl⟩ := List.mem_map.mp hx
      simp [h l hl, listDelta]
    simp [listDelta, List.sum_eq_zero hz]
  | take p x s q t _ ih =>
    rw [listDelta_cons, ih]
    simp only [List.map_append, List.sum_append, List.map_cons, List.sum_cons,
      listDelta_cons]
    ring

theorem branchEvents_balanced (d : Decision) : listDelta (branchEvents d) = 0 := by
  cases d <;> simp [branchEvents, listDelta, delta]

/-- C3: for every execution in which each admitted branch runs to completion
— formalised as any interleaving of the per-branch counter-event sequences,
each consisting of the admission increment and its single matching decrement
— the shared counter returns to its initial value 0. -/
theorem activeCount_drains (B : List Decision) (t : List GateEvent)
    (h : Interleaving (B.map branchEvents) t) : applyEvents 0 t = 0 := by
  rw [applyEvents_eq, interleaving_delta h, zero_add]
  have hz : ∀ x ∈ (B.map branchEvents).map listDelta, x = 0 := by
    intro x hx
    obtain ⟨l, hl, rfl⟩ := List.mem_map.mp hx
    obtain ⟨d, _, rfl⟩ := List.mem_map.mp hl
    exact branchEvents_balanced d
  exact List.sum_eq_zero hz

/-- Concrete run for `activeCount_drains`: one concurrent and one inline
branch, fully sequential schedule; the counter drains to 0. -/
theorem activeCount_drains_witness :
    Interleaving
        ([Decision.runConcurrently, Decision.runInline].map branchEvents)
        [GateEvent.inc, GateEvent.dec, GateEvent.inc, GateEvent.dec] ∧
      applyEvents 0 [GateEvent.inc, GateEvent.dec, GateEvent.inc, GateEvent.dec] = 0 := by
  have h0 : Interleaving [([] : List GateEvent), []] [] :=
    Interleaving.all_nil _ (by simp)
  have h1 : Interleaving [[], [GateEvent.dec]] [GateEvent.dec] :=
    Interleaving.take [[]] GateEvent.dec [] [] [] h0
  have h2 : Interleaving [[], [GateEvent.inc, GateEvent.dec]]
      [GateEvent.inc, GateEvent.dec] :=
    Interleaving.take [[]] GateEvent.inc [GateEvent.dec] [] [GateEvent.dec] h1
  have h3 : Interleaving [[GateEvent.dec], [GateEvent.inc, GateEvent.dec]]
      [GateEvent.dec, GateEvent.inc, GateEvent.dec] :=
    Interleaving.take [] GateEvent.dec [] [[GateEvent.inc, GateEvent.dec]] _ h2
  have h4 : Interleaving
      [[GateEvent.inc, GateEvent.dec], [GateEvent.inc, GateEvent.dec]]
      [GateEvent.inc, GateEvent.dec, GateEvent.inc, GateEvent.dec] :=
    Interleaving.take [] GateEvent.inc [GateEvent.dec]
      [[GateEvent.inc, GateEvent.dec]] _ h3
  exact ⟨h4, activeCount_drains [Decision.runConcurrently, Decision.runInline] _ h4⟩

/-! ## Local artifact path derivation

`getDownloadPath` (main.go lines 31-47, identical in part_000) splits the
remote path on "/", percent-decodes each component with `url.PathUnescape`,
trims whitespace, keeps only nonempty components and joins them under the
fixed "downloads" root. The part_001 variant instead derives the name as
`"downloads/" + url.QueryUnescape(fileUrl[25:])`. Strings are modelled at
the character-list level; the inputs involved are ASCII, where Go's
byte-based indexing and Lean's character lists agree. -/

/-- Hexadecimal digit test used by percent decoding. -/
def isHexDigit (c : Char) : Bool :=
  c.isDigit || (decide ('a' ≤ c) && decide (c ≤ 'f')) ||
    (decide ('A' ≤ c) && decide (c ≤ 'F'))

/-- Value of a hexadecimal digit. -/
def hexVal (c : Char) : Nat :=
  if c.isDigit then c.toNat - '0'.toNat
  else if decide ('a' ≤ c) && decide (c ≤ 'f') then c.toNat - 'a'.toNat + 10
  else c.toNat - 'A'.toNat + 10

/-- Percent-decoding of one component, modelling Go's `url.PathUnescape`
(`plusIsSpace = false`) and `url.QueryUnescape` (`plusIsSpace = true`):
`%XY` with two hex digits decodes to that code point, a malformed `%` is an
error, and `+` becomes a space only in query mode. -/
def percentDecode (plusIsSpace : Bool) : List Char → Option (List Char)
  | [] => some []
  | '%' :: c1 :: c2 :: rest =>
    if isHexDigit c1 && isHexDigit c2 then
      (percentDecode plusIsSpace rest).map
        (fun l => Char.ofNat (16 * hexVal c1 + hexVal c2) :: l)
    else none
  | '%' :: _ => none
  | '+' :: rest =>
    (percentDecode plusIsSpace rest).map
      (fun l => (if plusIsSpace then ' ' else '+') :: l)
  | c :: rest => (percentDecode plusIsSpace rest).map (fun l => c :: l)

/-- Go `url.PathUnescape` on a component. -/
def pathUnescape (l : List Char) : Option (List Char) := percentDecode false l

/-- Go `url.QueryUnescape` on a string. -/
def queryUnescape (l : List Char) : Option (List Char) := percentDecode true l

/-- Whitespace as trimmed by Go's `strings.TrimSpace` (the ASCII cases;
these inputs are ASCII). -/
def isGoSpace (c : Char) : Bool :=
  c == ' ' || c == '\t' || c == '\n' || c == '\r' || c == '\x0b' || c == '\x0c'

/-- Go `strings.TrimSpace`. -/
def trimSpaceL (l : List Char) : List Char :=
  ((l.dropWhile isGoSpace).reverse.dropWhile isGoSpace).reverse

/-- Go `strings.Split(s, "/")`: yields the (possibly empty) runs between
slashes, one more component than separators. -/
def splitSlash : List Char → List (List Char)
  | [] => [[]]
  | '/' :: rest => [] :: splitSlash rest
  | c :: rest =>
    match splitSlash rest with
    | [] => [[c]]
    | p :: ps => (c :: p) :: ps

/-- Component loop of `getDownloadPath`: percent-decode (propagating the
first error), trim, and keep only components of positive length, in order. -/
def collectParts : List (List Char) → Option (List (List Char))
  | [] => some []
  | s :: rest =>
    match pathUnescape s with
    | none => none
    | some d =>
      let t := trimSpaceL d
      match collectParts rest with
      | none => none
      | some ps => some (if 0 < t.length then t :: ps else ps)

/-- Go `strings.Join(parts, "/")`. -/
def joinSlash : List (List Char) → List Char
  | [] => []
  | [p] => p
  | p :: ps => p ++ '/' :: joinSlash ps

/-- `getDownloadPath` (main.go lines 31-47): the local artifact path for a
remote entry path, or `none` when some component fails to percent-decode. -/
def getDownloadPath (entryPath : String) : Option String :=
  (collectParts (splitSlash entryPath.toList)).map fun ps =>
    String.mk (joinSlash ("downloads".toList :: ps))

/-- Path derivation exactly as the specification words it: split the remote
path into components, percent-decode each (failing when any is malformed),
trim whitespace, drop components that become empty, and join the remainder
under the fixed "downloads" root. -/
def specDownloadPath (entryPath : String) : Option String :=
  let comps := splitSlash entryPath.toList
  if comps.all (fun c => (pathUnescape c).isSome) then
    some (String.mk (joinSlash ("downloads".toList ::
      ((comps.filterMap (fun c => (pathUnescape c).map trimSpaceL)).filter
        (fun t => !t.isEmpty)))))
  else none

theorem collectParts_eq (l : List (List Char)) :
    collectParts l =
      if l.all (fun c => (pathUnescape c).isSome) then
        some ((l.filterMap (fun c => (pathUnescape c).map trimSpaceL)).filter
          (fun t => !t.isEmpty))
      else none := by
  induction l with
  | nil => simp [collectParts]
  | cons s rest ih =>
    simp only [collectParts, List.all_cons, List.filterMap_cons]
    cases h : pathUnescape s with
    | none => simp [h]
    | some d =>
      rw [ih]
      by_cases hall : rest.all (fun c => (pathUnescape c).isSome) = true
      · simp only [h, hall, Option.isSome_some, Bool.true_and, if_pos,
          Option.map_some', List.filter_cons]
        cases ht : trimSpaceL d with
        | nil => simp [ht]
        | cons a b => simp [ht]
      · simp [h, hall]

/-- C8 (amended): in the main and part_000 variants the local artifact path
is derived component-wise as the claim states: `getDownloadPath` coincides
with the specification-worded derivation (split, percent-decode, trim, drop
empties, join under "downloads") on every remote path. The part_001 variant
derives the name differently (see its counterexample). -/
theorem getDownloadPath_componentwise (entryPath : String) :
    getDownloadPath entryPath = specDownloadPath entryPath := by
  unfold getDownloadPath specDownloadPath
  rw [collectParts_eq]
  by_cases hall :
      (splitSlash entryPath.toList).all (fun c => (pathUnescape c).isSome) = true <;>
    simp [hall]

/-- Result of the part_001 artifact-name derivation. -/
inductive Name001
  | outOfRange
  | decodeError
  | ok (fileName : String)
  deriving DecidableEq, Repr

/-- Artifact-name derivation of part_001's `downloadUrl` (lines 223-229):
`url.QueryUnescape(fileUrl[25:])` prefixed with "downloads/". The slice sits
at a fixed byte offset of 25 and is out of range when the URL is shorter; a
query-unescape failure abandons the entry. -/
def name001 (fileUrl : String) : Name001 :=
  if fileUrl.toList.length < 25 then .outOfRange
  else
    match queryUnescape (fileUrl.toList.drop 25) with
    | none => .decodeError
    | some n => .ok (String.mk ("downloads/".toList ++ n))

/-- C8 counterexample: for the part_001 variant the artifact path is not the
component-wise derivation. For the file URL
"http://example.com/files/a+b/c" (remote path "/files/a+b/c") part_001
query-unescapes everything after byte 25 and produces "downloads/a b/c"
('+' becomes a space, the "files" component is swallowed by the fixed
offset), while the claimed derivation yields "downloads/files/a+b/c". -/
theorem name001_not_componentwise :
    name001 "http://example.com/files/a+b/c" = Name001.ok "downloads/a b/c" ∧
      specDownloadPath "/files/a+b/c" = some "downloads/files/a+b/c" ∧
      Name001.ok "downloads/a b/c" ≠ Name001.ok "downloads/files/a+b/c" := by
  refine ⟨?_, ?_, ?_⟩ <;> decide

/-! ## downloadUrl / saveContent event traces

`downloadUrl` (main.go lines 67-133) derives the artifact path, ensures the
parent directory, stats the local artifact (Intact / Damaged / absent),
fetches over the network when needed, creates the file and streams the body.
`saveContent` (lines 135-140) records the URL in the manifest first and then
runs `downloadUrl` unless the manifest-only flag is set. The trace below
lists the externally visible actions in program order; the streaming loop
itself is modelled separately. -/

/-- Externally visible actions of `saveContent` / `downloadUrl`. -/
inductive DlEvent
  | record (url : String)
  | intact
  | damaged
  | removeLocal
  | httpGet (url : String)
  | createFile
  | streamBody
  deriving DecidableEq, Repr

/-- Environment a `downloadUrl` call runs against: the stat result for the
local artifact (`none` when `os.Stat` fails, i.e. the artifact is absent),
and the success of `MkdirAll`, `http.Get` and `os.Create`. -/
structure DlEnv where
  localSize : Option Int
  mkdirOk : Bool
  httpOk : Bool
  createOk : Bool
  deriving DecidableEq, Repr

/-- Go `encoding/json` decoding of the `size` member into `FileEntry.Size`
(an `int64`): a missing member leaves the zero value. -/
def decodeJsonSize (remote : Option Int) : Int := remote.getD 0

/-- Event trace of `downloadUrl` (main.go lines 67-133): empty on a path
derivation or MkdirAll failure; `intact` and stop when the local artifact's
size equals the expected size; `damaged`, removal and a fetch when it
differs; a straight fetch when the artifact is absent. The `httpGet` event
carries the entry path (the code passes `getDownloadUrl(hostUrl, entryPath)`,
the same path re-rooted at the host). -/
def downloadUrlEvents (entryPath : String) (downloadSize : Int) (env : DlEnv) :
    List DlEvent :=
  match getDownloadPath entryPath with
  | none => []
  | some _ =>
    if !env.mkdirOk then []
    else
      let tail :=
        DlEvent.httpGet entryPath ::
          (if env.httpOk then
            DlEvent.createFile ::
              (if env.createOk then [DlEvent.streamBody] else [DlEvent.removeLocal])
          else [])
      match env.localSize with
      | some s =>
        if s == downloadSize then [DlEvent.intact]
        else DlEvent.damaged :: DlEvent.removeLocal :: tail
      | none => tail

/-- Whether an event is the network fetch. -/
def isHttpGet : DlEvent → Bool
  | .httpGet _ => true
  | _ => false

/-- Whether a `downloadUrl` call performs a network fetch. -/
def fetchesNetwork (entryPath : String) (downloadSize : Int) (env : DlEnv) : Bool :=
  (downloadUrlEvents entryPath downloadSize env).any isHttpGet

/-- C2 (amended): outside manifest-only mode, with the artifact path
derivable and MkdirAll successful, `downloadUrl` performs a network fetch iff
the local artifact is absent or its size differs from the remote size; a
remote size absent from the listing decodes to 0, so such an entry is
re-downloaded unless a zero-length local artifact exists, which is treated as
intact. -/
theorem fetchesNetwork_iff (entryPath : String) (remote : Option Int) (env : DlEnv)
    (hp : (getDownloadPath entryPath).isSome = true) (hm : env.mkdirOk = true) :
    (fetchesNetwork entryPath (decodeJsonSize remote) env = true ↔
      env.localSize ≠ some (decodeJsonSize remote)) ∧
      decodeJsonSize none = 0 := by
  refine ⟨?_, rfl⟩
  unfold fetchesNetwork downloadUrlEvents
  cases hgp : getDownloadPath entryPath with
  | none => rw [hgp] at hp; simp at hp
  | some fn =>
    simp only [hm, Bool.not_true, Bool.false_eq_true, if_false]
    cases hls : env.localSize with
    | none => simp [isHttpGet]
    | some s =>
      by_cases hs : s = decodeJsonSize remote
      · simp [hs, isHttpGet]
      · simp [hs, isHttpGet]

/-- Concrete instance for `fetchesNetwork_iff`: entry "a/b.txt", remote size
5, local artifact of size 3 — damaged, so the fetch happens. -/
theorem fetchesNetwork_iff_witness :
    ((getDownloadPath "a/b.txt").isSome = true) ∧
      ((⟨some 3, true, true, true⟩ : DlEnv).mkdirOk = true) ∧
      ((fetchesNetwork "a/b.txt" (decodeJsonSize (some 5))
            ⟨some 3, true, true, true⟩ = true ↔
          (⟨some 3, true, true, true⟩ : DlEnv).localSize ≠
            some (decodeJsonSize (some 5))) ∧
        decodeJsonSize none = 0) :=
  ⟨by decide, rfl,
    fetchesNetwork_iff "a/b.txt" (some 5) ⟨some 3, true, true, true⟩ (by decide) rfl⟩

/-- C2 counterexample: with the remote size absent (it decodes to 0) and a
zero-length local artifact present, `downloadUrl` reports Intact and performs
no network fetch — the entry is not re-downloaded, refuting "when the remote
size is absent the entry is always re-downloaded". -/
theorem absentSize_zeroArtifact_skipped :
    decodeJsonSize none = 0 ∧
      fetchesNetwork "a/b.txt" (decodeJsonSize none)
        ⟨some 0, true, true, true⟩ = false := by
  refine ⟨rfl, by decide⟩

/-- Trace of `saveContent` (main.go lines 135-140): record the URL in the
manifest, then run `downloadUrl` unless the manifest-only flag is set. -/
def saveContentEvents (writeUrlOnly : Bool) (fileUrl : String)
    (downloadSize : Int) (env : DlEnv) : List DlEvent :=
  DlEvent.record fileUrl ::
    (if writeUrlOnly = true then [] else downloadUrlEvents fileUrl downloadSize env)

/-- Whether an event is a manifest record. -/
def isRecord : DlEvent → Bool
  | .record _ => true
  | _ => false

theorem noRecordInDownload (u : String) (d : Int) (env : DlEnv) :
    ((downloadUrlEvents u d env).all fun e => !isRecord e) = true := by
  unfold downloadUrlEvents
  cases getDownloadPath u with
  | none => rfl
  | some fn =>
    cases hmk : env.mkdirOk with
    | false => simp
    | true =>
      cases env.localSize with
      | none => cases env.httpOk <;> cases env.createOk <;> simp [isRecord]
      | some s =>
        by_cases hs : (s == d) = true
        · simp [hs, isRecord]
        · cases env.httpOk <;> cases env.createOk <;> simp [hs, isRecord]

/-- C6: for every file entry the manifest record is the first action of
`saveContent`, no record happens anywhere in the download work that follows
(hence `record` runs exactly once per entry, before any download), and in
manifest-only mode the trace is the record alone — the URL is still recorded
and processing stops there. -/
theorem manifest_record_first_and_once (w : Bool) (u : String) (d : Int)
    (env : DlEnv) :
    (saveContentEvents w u d env).head? = some (DlEvent.record u) ∧
      ((saveContentEvents w u d env).tail.all fun e => !isRecord e) = true ∧
      saveContentEvents true u d env = [DlEvent.record u] := by
  refine ⟨rfl, ?_, rfl⟩
  show ((if w = true then [] else downloadUrlEvents u d env).all
      fun e => !isRecord e) = true
  cases w with
  | true => rfl
  | false => simpa using noRecordInDownload u d env

/-! ## The byte-streaming loop

`downloadUrl`'s loop (main.go lines 109-133, identical in part_000 and
part_001) reads the response body in 4096-byte chunks. Each `Read` returns a
chunk and an error flag; the code inspects the error before writing: `io.EOF`
returns with the file kept as-is, any other read error removes the file, then
the chunk is written and a write error also removes the file. The two write
branches (`n != 4096` or not) both write exactly `buffer[:n]`, modelled as
writing the step's data. -/

/-- Error flag of one `resp.Body.Read` call. -/
inductive ReadErr
  | ok
  | eofSig
  | fail
  deriving DecidableEq, Repr

/-- One interaction of the loop: the bytes the `Read` returned, its error
flag, and whether the subsequent `file.Write` would succeed (consulted only
when the read reported no error). -/
structure ReadStep where
  data : List Nat
  err : ReadErr
  writeOk : Bool
  deriving DecidableEq, Repr

/-- Final state of the local artifact after the loop. -/
inductive FileResult
  | kept (bytes : List Nat)
  | removed
  deriving DecidableEq, Repr

/-- The streaming loop: `file` holds the bytes written so far. -/
def streamLoop (file : List Nat) : List ReadStep → FileResult
  | [] => .kept file
  | s :: rest =>
    match s.err with
    | .eofSig => .kept file
    | .fail => .removed
    | .ok => if s.writeOk then streamLoop (file ++ s.data) rest else .removed

/-- Whether the interaction ends in a mid-stream read or write error (before
any end-of-stream). -/
def abortsWithError : List ReadStep → Bool
  | [] => false
  | s :: rest =>
    match s.err with
    | .eofSig => false
    | .fail => true
    | .ok => if s.writeOk then abortsWithError rest else true

/-- All bytes the response body yields, including a final chunk delivered
together with the end-of-stream signal. -/
def bodyBytes : List ReadStep → List Nat
  | [] => []
  | s :: rest =>
    match s.err with
    | .eofSig => s.data
    | .fail => []
    | .ok => s.data ++ bodyBytes rest

/-- C4: for every interaction and any bytes already written, the loop leaves
the artifact removed exactly when a mid-stream read or write error occurs —
on every error path the partially written artifact is deleted, and no partial
file remains. -/
theorem streamLoop_error_removes (file : List Nat) (t : List ReadStep) :
    streamLoop file t = FileResult.removed ↔ abortsWithError t = true := by
  induction t generalizing file with
  | nil => simp [streamLoop, abortsWithError]
  | cons s rest ih =>
    obtain ⟨d, e, w⟩ := s
    cases e with
    | eofSig => simp [streamLoop, abortsWithError]
    | fail => simp [streamLoop, abortsWithError]
    | ok => cases w <;> simp [streamLoop, abortsWithError, ih]

/-- C5 (code bug): a final short chunk delivered together with the
end-of-stream signal is dropped. On a body whose single `Read` returns bytes
[1,2,3] together with `io.EOF`, the loop returns with the file kept at 0
bytes although the body is [1,2,3] — the error check precedes the write, so
the bytes written do not equal the response body. -/
theorem streamLoop_drops_final_eof_chunk :
    streamLoop [] [⟨[1, 2, 3], ReadErr.eofSig, true⟩] = FileResult.kept [] ∧
      bodyBytes [⟨[1, 2, 3], ReadErr.eofSig, true⟩] = [1, 2, 3] ∧
      ([] : List Nat) ≠ [1, 2, 3] :=
  ⟨rfl, rfl, by decide⟩

/-! ## Directory crawl: the JSON-backend entry filter

`crawlDirectory` (main.go lines 184-201) lists a directory and, per entry,
skips it when it equals the listed directory or does not extend its path,
recurses on a trailing slash, and otherwise saves the file. -/

/-- Go `strings.HasPrefix(s, p)`. -/
def hasPrefixGo (s p : String) : Bool := p.toList.isPrefixOf s.toList

/-- Go `strings.HasSuffix(s, p)`. -/
def hasSuffixGo (s p : String) : Bool := p.toList.isSuffixOf s.toList

/-- A listing entry of the JSON backend (`FileEntry` in main.go: json tags
href / time / size). -/
structure JsonEntry where
  path : String
  time : Nat
  size : Int
  deriving DecidableEq, Repr

/-- What the crawler does with one entry. -/
inductive CrawlAction
  | skip
  | recurse (p : String)
  | save (p : String) (size : Int) (time : Nat)
  deriving DecidableEq, Repr

/-- Per-entry dispatch of `crawlDirectory` (main.go lines 190-199). -/
def crawlEntryAction (dirPath : String) (e : JsonEntry) : CrawlAction :=
  if (dirPath == e.path) || !(hasPrefixGo e.path dirPath) then CrawlAction.skip
  else if hasSuffixGo e.path "/" then CrawlAction.recurse e.path
  else CrawlAction.save e.path e.size e.time

/-! ## Directory crawl: the HTML-backend row parsers

part_000 and part_001 parse each `<tr>` of the h5ai table. Per `<td>`,
identified by its class attribute, they extract the entry type (`fb-i`), the
href (`fb-n`), the timestamp (`fb-d`) and the size (`fb-s`); a missing class
attribute, an unknown class, or any failed extraction rejects the whole row.
Rows typed invalid or folder-parent are skipped; folder rows are recursed
into and file rows saved — with no check that the href is a proper descendant
of the listed directory. A `<td>` is modelled as its class attribute and
first child; a child node as its tag-or-text data plus attributes. -/

/-- First child of a td: its `Data` (tag name or text) and attributes. -/
structure ChildNode where
  data : String
  attrs : List (String × String)
  deriving DecidableEq, Repr

/-- One `<td>` cell of a row. -/
structure TdNode where
  classAttr : Option String
  firstChild : Option ChildNode
  deriving DecidableEq, Repr

/-- `getAttribute`: first attribute with the given key. -/
def getAttr : List (String × String) → String → Option String
  | [], _ => none
  | (k2, v) :: rest, k => if k2 == k then some v else getAttr rest k

/-- Entry classification of the HTML backends. -/
inductive EntryType
  | invalidEntry
  | fileEntry
  | folderEntry
  | folderParentEntry
  deriving DecidableEq, Repr

/-- `GetEntryType`: requires an `img` first child whose `alt` attribute is
file, folder or folder-parent; `none` models the boolean failure return. -/
def getEntryType (td : TdNode) : Option EntryType :=
  match td.firstChild with
  | none => none
  | some c =>
    if c.data == "img" then
      match getAttr c.attrs "alt" with
      | some v =>
        if v == "file" then some EntryType.fileEntry
        else if v == "folder" then some EntryType.folderEntry
        else if v == "folder-parent" then some EntryType.folderParentEntry
        else none
      | none => none
    else none

/-- `GetEntryPath`: requires an `a` first child carrying an `href`
attribute; the href value itself may be empty. -/
def getEntryPath (td : TdNode) : Option String :=
  match td.firstChild with
  | none => none
  | some c => if c.data == "a" then getAttr c.attrs "href" else none

/-- Success of Go's `time.Parse("2006-01-02 15:04", s)`, modelled as the
shape check digits-with-fixed-separators; the parsed value is never used by
the crawler, and the real parser's field range checks are not modelled. -/
def parseClockOk (s : String) : Bool :=
  match s.toList with
  | [y1, y2, y3, y4, '-', m1, m2, '-', d1, d2, ' ', h1, h2, ':', n1, n2] =>
    [y1, y2, y3, y4, m1, m2, d1, d2, h1, h2, n1, n2].all Char.isDigit
  | _ => false

/-- `GetEntryTime`: requires a first child whose text parses as a
timestamp. -/
def getEntryTime (td : TdNode) : Option Unit :=
  match td.firstChild with
  | none => none
  | some c => if parseClockOk c.data then some () else none

/-- Numeric value of a digit string. -/
def digitsVal (l : List Char) : Nat :=
  l.foldl (fun a c => 10 * a + (c.toNat - '0'.toNat)) 0

/-- Go `strconv.ParseInt(s, 10, 64)`: optional sign then digits; the int64
range check is not modelled (the sizes involved are tiny). -/
def parseIntGo (s : List Char) : Option Int :=
  match s with
  | [] => none
  | '-' :: ds =>
    if ds ≠ [] ∧ ds.all Char.isDigit then some (-(digitsVal ds : Int)) else none
  | '+' :: ds =>
    if ds ≠ [] ∧ ds.all Char.isDigit then some ((digitsVal ds : Int)) else none
  | ds => if ds.all Char.isDigit then some ((digitsVal ds : Int)) else none

/-- `GetEntrySize` of part_000: a bare integer, or an integer with a " KB"
suffix which is scaled by 1000. -/
def getEntrySize000 (td : TdNode) : Option Int :=
  match td.firstChild with
  | none => none
  | some c =>
    let l := c.data.toList
    let (l2, isKb) :=
      if " KB".toList.isSuffixOf l then (l.take (l.length - 3), true)
      else (l, false)
    match parseIntGo l2 with
    | none => none
    | some i => some (if isKb then i * 1000 else i)

/-- `GetEntrySize` of part_001: only a " KB"-suffixed integer is accepted,
and the value is stored unscaled. -/
def getEntrySize001 (td : TdNode) : Option Int :=
  match td.firstChild with
  | none => none
  | some c =>
    let l := c.data.toList
    if " KB".toList.isSuffixOf l then parseIntGo (l.take (l.length - 3))
    else none

/-- Fields the td loop of `ParseEntry` accumulates (the timestamp value is
parsed but never used). Initial values: invalid type, empty path, size 0. -/
structure RowFields where
  entryType : EntryType
  entryPath : String
  entrySize : Int
  deriving DecidableEq, Repr

/-- One iteration of the td loop of `ParseEntry` (common to part_000 and
part_001 up to the size parser): `none` models the early return on a missing
class attribute, an unknown class (`parseResult` stays false), or a failed
extraction. -/
def parseTd (sizeOf : TdNode → Option Int) (f : RowFields) (td : TdNode) :
    Option RowFields :=
  match td.classAttr with
  | none => none
  | some cls =>
    if cls == "fb-i" then
      (getEntryType td).map fun t => { f with entryType := t }
    else if cls == "fb-n" then
      (getEntryPath td).map fun p => { f with entryPath := p }
    else if cls == "fb-d" then
      (getEntryTime td).map fun _ => f
    else if cls == "fb-s" then
      (sizeOf td).map fun s => { f with entrySize := s }
    else none

/-- The td loop of `ParseEntry` over a row's cells. -/
def parseRow (sizeOf : TdNode → Option Int) :
    List TdNode → RowFields → Option RowFields
  | [], f => some f
  | td :: rest, f =>
    match parseTd sizeOf f td with
    | none => none
    | some f2 => parseRow sizeOf rest f2

/-- What part_000's `ParseEntry` does with one row. -/
inductive Action000
  | skip
  | recurse (p : String)
  | save (p : String) (size : Int)
  deriving DecidableEq, Repr

/-- Row dispatch of part_000's `ParseEntry` (lines 195-238): rejected,
invalid or folder-parent rows are skipped; folder rows are recursed into via
`crawlDirectoryAsync(entryPath)` as-is; file rows are saved. -/
def parseEntry000 (tds : List TdNode) : Action000 :=
  match parseRow getEntrySize000 tds ⟨EntryType.invalidEntry, "", 0⟩ with
  | none => Action000.skip
  | some f =>
    if f.entryType == EntryType.invalidEntry ||
        f.entryType == EntryType.folderParentEntry then Action000.skip
    else if f.entryType == EntryType.folderEntry then Action000.recurse f.entryPath
    else Action000.save f.entryPath f.entrySize

/-- Entry type a row parses to in part_000 (invalid when the td loop rejects
the row). -/
def rowTypeOf (tds : List TdNode) : EntryType :=
  match parseRow getEntrySize000 tds ⟨EntryType.invalidEntry, "", 0⟩ with
  | none => EntryType.invalidEntry
  | some f => f.entryType

/-- What part_001's `ParseEntry` does with one row; `indexOutOfRange` models
the panic of `entryPath[0]` on an empty path. -/
inductive P1Result
  | skip
  | indexOutOfRange
  | recurse (u : String)
  | save (u : String) (size : Int)
  deriving DecidableEq, Repr

/-- Row dispatch of part_001's `ParseEntry` (lines 167-215): after the type
check the code reads `entryPath[0]` to strip a leading slash and prepends the
global `baseUrl`; an empty entry path makes that index out of range. -/
def parseEntry001 (baseUrl : String) (tds : List TdNode) : P1Result :=
  match parseRow getEntrySize001 tds ⟨EntryType.invalidEntry, "", 0⟩ with
  | none => P1Result.skip
  | some f =>
    if f.entryType == EntryType.invalidEntry ||
        f.entryType == EntryType.folderParentEntry then P1Result.skip
    else
      match f.entryPath.toList with
      | [] => P1Result.indexOutOfRange
      | c :: rest =>
        let p := if c == '/' then String.mk rest else f.entryPath
        let u := baseUrl ++ p
        if f.entryType == EntryType.folderEntry then P1Result.recurse u
        else P1Result.save u f.entrySize

/-- C7 counterexample: a listing of directory "/docs/" whose table echoes the
directory itself as a folder row (class fb-i with alt "folder", class fb-n
with href "/docs/"). part_000's `ParseEntry` recurses into it — an entry
equal to the listed directory is recursed into, refuting the claim for the
HTML backends. -/
theorem parseEntry000_recurses_self :
    parseEntry000
        [⟨some "fb-i", some ⟨"img", [("alt", "folder")]⟩⟩,
         ⟨some "fb-n", some ⟨"a", [("href", "/docs/")]⟩⟩] =
      Action000.recurse "/docs/" := by decide

/-- C7 (amended): the JSON-backend crawler skips exactly the entries that
are not proper descendants of the listed directory (equal to it, or not
extending its path) — such an entry is never recursed into and never fetched
— and the HTML-backend parser discards every parent-link row; but the HTML
backends perform no proper-descendant check (see the counterexample). -/
theorem descendant_filter_amended :
    (∀ (dirPath : String) (e : JsonEntry),
        crawlEntryAction dirPath e ≠ CrawlAction.skip ↔
          (e.path ≠ dirPath ∧ hasPrefixGo e.path dirPath = true)) ∧
      (∀ tds : List TdNode,
        rowTypeOf tds = EntryType.folderParentEntry →
          parseEntry000 tds = Action000.skip) := by
  constructor
  · intro dirPath e
    unfold crawlEntryAction
    by_cases h1 : dirPath = e.path
    · simp [h1]
    · have h1s : e.path ≠ dirPath := fun h => h1 h.symm
      by_cases h2 : hasPrefixGo e.path dirPath = true
      · simp only [beq_iff_eq, h1, h2, Bool.not_true, Bool.or_false,
          if_false, decide_False, Bool.false_or]
        split <;> simp [h1s, h2]
      · simp [h1, h2]
  · intro tds h
    unfold parseEntry000
    unfold rowTypeOf at h
    cases hr : parseRow getEntrySize000 tds ⟨EntryType.invalidEntry, "", 0⟩ with
    | none => rfl
    | some f =>
      rw [hr] at h
      have h2 : f.entryType = EntryType.folderParentEntry := h
      simp [h2]

/-- Concrete instance for `descendant_filter_amended`: a parent-link row
(alt "folder-parent") is skipped by part_000's `ParseEntry`. -/
theorem descendant_filter_amended_witness :
    rowTypeOf [⟨some "fb-i", some ⟨"img", [("alt", "folder-parent")]⟩⟩] =
        EntryType.folderParentEntry ∧
      parseEntry000 [⟨some "fb-i", some ⟨"img", [("alt", "folder-parent")]⟩⟩] =
        Action000.skip :=
  ⟨by decide, descendant_filter_amended.2 _ (by decide)⟩

/-- C10: the part_001 variant's bounds hazards are real. A row with an empty
href reaches `entryPath[0]` with an empty string — out of range. A file row
with href "/x.bin" crawled from the 9-byte base URL "http://a/" is saved as
URL "http://a/x.bin", only 14 bytes long, and `downloadUrl`'s fixed-offset
slice `fileUrl[25:]` on it is out of range. -/
theorem parseEntry001_bounds_violations :
    parseEntry001 "http://a/"
        [⟨some "fb-i", some ⟨"img", [("alt", "file")]⟩⟩,
         ⟨some "fb-n", some ⟨"a", [("href", "")]⟩⟩] =
      P1Result.indexOutOfRange ∧
      parseEntry001 "http://a/"
        [⟨some "fb-i", some ⟨"img", [("alt", "file")]⟩⟩,
         ⟨some "fb-n", some ⟨"a", [("href", "/x.bin")]⟩⟩,
         ⟨some "fb-s", some ⟨"1 KB", []⟩⟩] =
      P1Result.save "http://a/x.bin" 1 ∧
      "http://a/x.bin".toList.length < 25 ∧
      name001 "http://a/x.bin" = Name001.outOfRange := by
  refine ⟨by decide, by decide, by decide, by decide⟩

/-! ## Top-level join

`main` (main.go lines 288-292) runs the root crawl, sleeps one second and
calls `wg.Wait()`. Each concurrent unit is dispatched as `go f_async()`
(lines 211 / 226), and `wg.Add(1)` is the first statement *inside* the
spawned goroutine (line 204) — registration happens only once the goroutine
is scheduled, and the fixed sleep establishes no happens-before edge. The
model below is the step relation of that discipline: `spawn` dispatches a
goroutine, `start` is the goroutine running its `wg.Add(1)`, `finish` is its
`wg.Done()`, and `wait` is `wg.Wait()` returning, enabled exactly when the
WaitGroup counter is 0. A schedule is valid when every step is enabled. -/

/-- Scheduler steps of the join model. -/
inductive JAction
  | spawn
  | start
  | finish
  | wait
  deriving DecidableEq, Repr

/-- Join state: the WaitGroup counter, goroutines dispatched but not yet
scheduled (their `wg.Add(1)` has not run), goroutines between `Add` and
`Done`, and whether `main` has passed `wg.Wait()`. -/
structure JoinState where
  wgCount : Int
  pending : Nat
  running : Nat
  mainDone : Bool
  deriving DecidableEq, Repr

/-- One scheduler step; `none` when the step is not enabled. -/
def jstep (s : JoinState) : JAction → Option JoinState
  | .spawn => some { s with pending := s.pending + 1 }
  | .start =>
    match s.pending with
    | 0 => none
    | p + 1 =>
      some { s with pending := p, running := s.running + 1, wgCount := s.wgCount + 1 }
  | .finish =>
    match s.running with
    | 0 => none
    | r + 1 => some { s with running := r, wgCount := s.wgCount - 1 }
  | .wait => if s.wgCount == 0 then some { s with mainDone := true } else none

/-- Run a schedule from a state. -/
def runSchedule (s : JoinState) : List JAction → Option JoinState
  | [] => some s
  | a :: rest =>
    match jstep s a with
    | none => none
    | some s2 => runSchedule s2 rest

/-- State at process start. -/
def initJoin : JoinState := ⟨0, 0, 0, false⟩

/-- C9 (code bug): the valid schedule "main dispatches one goroutine, the
scheduler does not run it within the one-second sleep, main calls
`wg.Wait()`" ends with `mainDone = true` while the dispatched unit has not
even started: `wg.Add(1)` sits inside the spawned goroutine, so the unit is
not registered before the top-level wait can pass it, and `Wait` sees
counter 0. The top-level caller treats the crawl as finished (prints the
completion message) with a dispatched concurrent unit still incomplete. -/
theorem wait_passes_unstarted_goroutine :
    runSchedule initJoin [JAction.spawn, JAction.wait] =
        some ⟨0, 1, 0, true⟩ ∧
      (⟨0, 1, 0, true⟩ : JoinState).mainDone = true ∧
      (⟨0, 1, 0, true⟩ : JoinState).pending ≠ 0 :=
  ⟨rfl, rfl, by decide⟩

/-- C1: every admission atomically increments the shared counter; the branch
is dispatched concurrently iff the post-increment value is at most the limit,
in which case the counter keeps the incremented value; otherwise the counter
is decremented back to its previous value (and the work runs inline on the
caller). -/
theorem enterGate_spec (g : Gate) :
    ((enterGate g).1 = Decision.runConcurrently ↔ g.activeCount + 1 ≤ g.limit) ∧
      (enterGate g).2.activeCount =
        (if g.activeCount + 1 ≤ g.limit then g.activeCount + 1 else g.activeCount) ∧
      (enterGate g).2.limit = g.limit := by
  unfold enterGate
  by_cases h : g.activeCount + 1 ≤ g.limit <;> simp [h]

end H5ai
